import Mathlib

/-!
Shallow embedding of the `claude-go` Vault (package `vault`) and Updater
(package `update`) in Lean 4, together with proofs of the specification
claims about them.

Conventions of the embedding:
* Go machine integers are modelled as `Int`/`Nat` (none of the verified
  operations can overflow on the inputs the claims range over).
* `time.Time` values are modelled as `Nat`; the Go zero time corresponds
  to `0` (`time.Time.IsZero` becomes `= 0`).
* Go maps are modelled as association lists with replace-on-insert
  semantics; Go map iteration order is unspecified, the embedding
  iterates in association-list order.
* Filesystem and network effects are modelled by explicit state passing;
  the outcome of each external effect (directory creation, file write,
  HTTP download, zip opening) is an explicit parameter of the operation.
* The cryptographic primitives (Argon2id, AES-256-GCM, SHA-256) are
  external library calls, not code of this repository; they are modelled
  ideally: key derivation is the pair of its inputs, authenticated
  encryption is a record that decrypts exactly under the sealing key and
  nonce, and the SHA-256 hex digest is an abstract function supplied by
  the environment.
-/

set_option autoImplicit false

namespace ClaudeGo

/-! ## Association-list maps (Go `map` semantics: replace on insert) -/

/-- Lookup in an association-list map (Go `m[k]` / `m[k], ok`). -/
def mapLookup {κ α : Type} [DecidableEq κ] : List (κ × α) → κ → Option α
  | [], _ => none
  | (k', v) :: rest, k => if k' = k then some v else mapLookup rest k

/-- Insert into an association-list map, replacing an existing binding
(Go `m[k] = v`). -/
def mapInsert {κ α : Type} [DecidableEq κ] : List (κ × α) → κ → α → List (κ × α)
  | [], k, v => [(k, v)]
  | (k', v') :: rest, k, v =>
    if k' = k then (k, v) :: rest else (k', v') :: mapInsert rest k v

theorem mapLookup_insert_self {κ α : Type} [DecidableEq κ]
    (m : List (κ × α)) (k : κ) (v : α) :
    mapLookup (mapInsert m k v) k = some v := by
  induction m with
  | nil => simp [mapInsert, mapLookup]
  | cons p rest ih =>
    obtain ⟨k', v'⟩ := p
    by_cases h : k' = k
    · simp [mapInsert, mapLookup, h]
    · simp [mapInsert, mapLookup, h, ih]

theorem mapLookup_insert_ne {κ α : Type} [DecidableEq κ]
    (m : List (κ × α)) (k k' : κ) (v : α) (h : k ≠ k') :
    mapLookup (mapInsert m k v) k' = mapLookup m k' := by
  induction m with
  | nil => simp [mapInsert, mapLookup, h]
  | cons p rest ih =>
    obtain ⟨k0, v0⟩ := p
    by_cases h0 : k0 = k
    · subst h0
      simp [mapInsert, mapLookup, h]
    · simp only [mapInsert, if_neg h0]
      by_cases h1 : k0 = k'
      · simp [mapLookup, h1]
      · simp [mapLookup, h1, ih]

/-! ## Version comparison (`src/unnamed/part_007`, package `update`)

`compareVersions` splits both strings on `.` and compares the first three
components numerically, parsing each component the way
`fmt.Sscanf(part, "%d", &num)` does: leading whitespace skipped, optional
sign, longest digit run; when nothing can be parsed the variable keeps its
zero value.  (Parsed values are unbounded here; `%d` overflow of `int` is
not modelled, real version components are tiny.) -/

/-- `strings.Split` on a one-character separator, over the character list.
`cur` is the (reversed) current field being accumulated. -/
def splitCharsOn (sep : Char) : List Char → List Char → List (List Char)
  | [], cur => [cur.reverse]
  | c :: rest, cur =>
    if c = sep then cur.reverse :: splitCharsOn sep rest []
    else splitCharsOn sep rest (c :: cur)

/-- `strings.Split(s, ".")`. -/
def splitDots (s : String) : List String :=
  (splitCharsOn '.' s.data []).map (fun cs => String.mk cs)

/-- Numeric value of a digit run. -/
def intOfDigits (ds : List Char) : Nat :=
  ds.foldl (fun n c => n * 10 + (c.toNat - 48)) 0

/-- Body of the `fmt.Sscanf("%d")` model, after whitespace skipping. -/
def scanBody (l : List Char) : Int :=
  match l with
  | [] => 0
  | c :: rest =>
    if c = '-' then
      let ds := rest.takeWhile Char.isDigit
      if ds.isEmpty then 0 else -(intOfDigits ds : Int)
    else if c = '+' then
      let ds := rest.takeWhile Char.isDigit
      if ds.isEmpty then 0 else (intOfDigits ds : Int)
    else
      let ds := (c :: rest).takeWhile Char.isDigit
      if ds.isEmpty then 0 else (intOfDigits ds : Int)

/-- `fmt.Sscanf(s, "%d", &n)` with `n` starting at its zero value: on any
scan failure `n` stays `0`. -/
def goScanInt (s : String) : Int :=
  scanBody (s.data.dropWhile Char.isWhitespace)

/-- Whether `fmt.Sscanf(s, "%d", _)` finds an integer at the front of `s`
(after whitespace: an optional sign followed by at least one digit). -/
def hasIntPre (s : String) : Bool :=
  match s.data.dropWhile Char.isWhitespace with
  | [] => false
  | c :: rest =>
    if c = '-' then !(rest.takeWhile Char.isDigit).isEmpty
    else if c = '+' then !(rest.takeWhile Char.isDigit).isEmpty
    else !((c :: rest).takeWhile Char.isDigit).isEmpty

/-- The `i`-th numeric component of a split version string: `var num int`
stays `0` when `i ≥ len(parts)` or when the scan fails. -/
def versionComponent (parts : List String) (i : Nat) : Int :=
  match parts.get? i with
  | some p => goScanInt p
  | none => 0

/-- The comparison done in one iteration of the `compareVersions` loop:
`if numA > numB { return 1 }; if numA < numB { return -1 }`. -/
def cmpInt (numA numB : Int) : Int :=
  if numA > numB then 1 else if numA < numB then -1 else 0

/-- One iteration of the `compareVersions` loop: compare component `i`. -/
def cmpAt (pa pb : List String) (i : Nat) : Int :=
  cmpInt (versionComponent pa i) (versionComponent pb i)

/-- The early-return structure of the three-iteration loop: the first
nonzero comparison wins, otherwise the loop falls through to `0`. -/
def chain3 (c0 c1 c2 : Int) : Int :=
  if c0 ≠ 0 then c0 else if c1 ≠ 0 then c1 else c2

/-- `compareVersions(a, b)` (the three-iteration loop unrolled: the loop
returns at the first component where the values differ). -/
def compareVersions (a b : String) : Int :=
  let pa := splitDots a
  let pb := splitDots b
  chain3 (cmpAt pa pb 0) (cmpAt pa pb 1) (cmpAt pa pb 2)

/-- The three parsed integer components of a version string (missing
components are 0). -/
def parsedTriple (s : String) : Int × Int × Int :=
  let p := splitDots s
  (versionComponent p 0, versionComponent p 1, versionComponent p 2)

/-- The specification's notion of "strictly greater": split on `.`, parse
three integer components (missing ones 0), compare lexicographically. -/
def specVersionGt (a b : String) : Bool :=
  let ta := parsedTriple a
  let tb := parsedTriple b
  decide (ta.1 > tb.1) ||
    (decide (ta.1 = tb.1) &&
      (decide (ta.2.1 > tb.2.1) ||
        (decide (ta.2.1 = tb.2.1) && decide (ta.2.2 > tb.2.2))))

/-! ## Updater data (`src/unnamed/part_007`, package `update`) -/

/-- Download information for one platform, from the manifest. -/
structure Download where
  url : String
  sha256 : String
  size : Int
deriving DecidableEq

/-- The version manifest fetched from GitHub. -/
structure Manifest where
  version : String
  releaseDate : String
  changelog : List String
  downloads : List (String × Download)
  minVersion : String
deriving DecidableEq

/-- The updater handle (`Updater` struct). -/
structure Updater where
  usbRoot : String
  currentVersion : String
  platform : String
deriving DecidableEq

/-- The update decision of `CheckForUpdate` once the manifest has been
fetched and decoded: `hasUpdate := compareVersions(manifest.Version,
u.CurrentVersion) > 0`. -/
def checkForUpdate (u : Updater) (m : Manifest) : Bool :=
  decide (compareVersions m.version u.currentVersion > 0)

/-- `readVersionFile` once the I/O outcome is fixed: `none` stands for a
missing/unreadable or unparsable `.version` file, `some v` for a file
whose JSON decoded with `version` field `v`. -/
def readVersionFile (content : Option String) : String :=
  match content with
  | none => "0.0.0"
  | some v => v

theorem chain3_cmpInt_eq_one (a0 b0 a1 b1 a2 b2 : Int) :
    chain3 (cmpInt a0 b0) (cmpInt a1 b1) (cmpInt a2 b2) = 1 ↔
      (a0 > b0 ∨ (a0 = b0 ∧ (a1 > b1 ∨ (a1 = b1 ∧ a2 > b2)))) := by
  unfold chain3 cmpInt
  split_ifs <;> simp_all <;> omega

theorem chain3_cmpInt_eq_zero (a0 b0 a1 b1 a2 b2 : Int) :
    chain3 (cmpInt a0 b0) (cmpInt a1 b1) (cmpInt a2 b2) = 0 ↔
      (a0 = b0 ∧ a1 = b1 ∧ a2 = b2) := by
  unfold chain3 cmpInt
  split_ifs <;> simp_all <;> omega

theorem chain3_cmpInt_trichotomy (a0 b0 a1 b1 a2 b2 : Int) :
    chain3 (cmpInt a0 b0) (cmpInt a1 b1) (cmpInt a2 b2) = 1 ∨
      chain3 (cmpInt a0 b0) (cmpInt a1 b1) (cmpInt a2 b2) = 0 ∨
      chain3 (cmpInt a0 b0) (cmpInt a1 b1) (cmpInt a2 b2) = -1 := by
  unfold chain3 cmpInt
  split_ifs <;> omega

theorem compareVersions_eq_one_iff (a b : String) :
    compareVersions a b = 1 ↔ specVersionGt a b = true := by
  show chain3 _ _ _ = 1 ↔ _
  unfold cmpAt
  rw [chain3_cmpInt_eq_one]
  unfold specVersionGt parsedTriple
  simp only [Bool.or_eq_true, Bool.and_eq_true, decide_eq_true_eq]

theorem compareVersions_eq_zero_iff (a b : String) :
    compareVersions a b = 0 ↔ parsedTriple a = parsedTriple b := by
  show chain3 _ _ _ = 0 ↔ _
  unfold cmpAt
  rw [chain3_cmpInt_eq_zero]
  unfold parsedTriple
  simp only [Prod.mk.injEq]

theorem compareVersions_trichotomy (a b : String) :
    compareVersions a b = 1 ∨ compareVersions a b = 0 ∨ compareVersions a b = -1 := by
  show chain3 _ _ _ = 1 ∨ chain3 _ _ _ = 0 ∨ chain3 _ _ _ = -1
  unfold cmpAt
  exact chain3_cmpInt_trichotomy _ _ _ _ _ _

theorem checkForUpdate_iff (u : Updater) (m : Manifest) :
    checkForUpdate u m = true ↔ specVersionGt m.version u.currentVersion = true := by
  rw [← compareVersions_eq_one_iff]
  unfold checkForUpdate
  rcases compareVersions_trichotomy m.version u.currentVersion with h | h | h <;>
    simp [h]

/-! ## Archive extraction (`src/unnamed/part_007`, `extractUpdate` /
`extractFile`)

`extractUpdate` walks the zip entries, skips every entry whose name is
neither prefixed `bin/` nor suffixed `.sh`/`.bat`, and writes the others
to `filepath.Join(u.USBRoot, f.Name)`.  `filepath.Join` concatenates and
then lexically cleans the path, so the written location is `USBRoot`
followed by the cleaned components of the entry name.  Destinations are
modelled as cleaned path-component lists relative to `USBRoot`. -/

/-- `strings.HasPrefix(s, pre)` over character lists. -/
def listHasPre : List Char → List Char → Bool
  | [], _ => true
  | _ :: _, [] => false
  | p :: ps, c :: cs => p = c && listHasPre ps cs

/-- `strings.HasPrefix(s, pre)`. -/
def goHasPre (pre s : String) : Bool :=
  listHasPre pre.data s.data

/-- `strings.HasSuffix(s, suf)`. -/
def goHasSuf (suf s : String) : Bool :=
  listHasPre suf.data.reverse s.data.reverse

/-- The allowlist filter of `extractUpdate`: `strings.HasPrefix(f.Name,
"bin/") || strings.HasSuffix(f.Name, ".sh") || strings.HasSuffix(f.Name,
".bat")`. -/
def allowedEntry (name : String) : Bool :=
  goHasPre "bin/" name || goHasSuf ".sh" name || goHasSuf ".bat" name

/-- Lexical path cleaning of a relative path, as `filepath.Clean` does
inside `filepath.Join`: drop empty and `.` components, let `..` pop the
previous component (leading `..` components, which would climb above
`USBRoot`, are kept).  `acc` holds the processed components reversed. -/
def cleanComps : List String → List String → List String
  | [], acc => acc.reverse
  | c :: rest, acc =>
    if c = "" ∨ c = "." then cleanComps rest acc
    else if c = ".." then
      match acc with
      | [] => cleanComps rest [".."]
      | a :: acc' => if a = ".." then cleanComps rest (".." :: a :: acc') else cleanComps rest acc'
    else cleanComps rest (c :: acc)

/-- Components of `filepath.Join(USBRoot, name)` relative to `USBRoot`. -/
def destRel (name : String) : List String :=
  cleanComps ((splitCharsOn '/' name.data []).map (fun cs => String.mk cs)) []

/-- One entry of the update zip archive. -/
structure ZipEntry where
  name : String
  isDir : Bool
  content : List Nat
deriving DecidableEq

/-- The destinations (relative to `USBRoot`) of the regular files that
`extractUpdate` writes for a given archive: allowlisted non-directory
entries, extracted by `extractFile` to `filepath.Join(u.USBRoot, f.Name)`. -/
def extractUpdateWrites (entries : List ZipEntry) : List (List String) :=
  entries.filterMap (fun e =>
    if allowedEntry e.name && !e.isDir then some (destRel e.name) else none)

/-! ## Update pipeline (`src/unnamed/part_007`, `PerformUpdate`)

The payload directory `USBRoot/bin` and the other files under `USBRoot`
are kept separately, because `createRollback` snapshots exactly the `bin`
subtree and `rollback` replaces exactly the `bin` subtree. -/

/-- Files on the USB volume: the `bin/` payload subtree (keyed by path
inside `bin/`), everything else under `USBRoot` (keyed by cleaned path
components relative to `USBRoot`: `vault/`, `sessions/`, `config/`,
top-level scripts), the `.rollback` snapshot if present, and the
`.version` marker. -/
structure USBState where
  bin : List (List String × List Nat)
  outside : List (List String × List Nat)
  rollback : Option (List (List String × List Nat))
  versionFile : Option String
deriving DecidableEq

/-- Outcomes of the external effects that one `PerformUpdate` run hits. -/
structure UpdateEnv where
  hashHex : List Nat → String
  copyOk : Bool
  downloadResult : Except Unit (List Nat)
  unzipResult : List Nat → Except Unit (List ZipEntry)

/-- Error kinds surfaced by `PerformUpdate` (the `fmt.Errorf` wrappers). -/
inductive UpdateError
  | unsupportedPlatform
  | backupFailed
  | downloadFailed
  | checksumFailed
  | extractionFailed
deriving DecidableEq

/-- `strings.EqualFold` restricted to ASCII (hex digests are ASCII):
equal up to per-character lower-casing. -/
def goEqualFold (s t : String) : Bool :=
  s.data.map Char.toLower == t.data.map Char.toLower

/-- `verifyChecksum`: hash the full downloaded bytes and compare the hex
digest case-insensitively with the manifest's; `true` means it passes. -/
def verifyChecksum (hashHex : List Nat → String) (bytes : List Nat)
    (expected : String) : Bool :=
  goEqualFold (hashHex bytes) expected

/-- `rollback()`: if no snapshot exists report "no rollback available";
otherwise `os.RemoveAll(binDir)` then rename the snapshot to `bin`. -/
def rollbackOp (s : USBState) : USBState :=
  match s.rollback with
  | none => s
  | some snap => { s with bin := snap, rollback := none }

/-- Write one extracted file: route the cleaned destination either into
the `bin/` subtree or among the other files under `USBRoot`. -/
def applyWrite (s : USBState) (e : ZipEntry) : USBState :=
  match destRel e.name with
  | "bin" :: rest => { s with bin := mapInsert s.bin rest e.content }
  | comps => { s with outside := mapInsert s.outside comps e.content }

/-- `extractUpdate` applied to the USB state: write every allowlisted
regular-file entry (directory entries only create directories). -/
def extractApply (s : USBState) (entries : List ZipEntry) : USBState :=
  entries.foldl
    (fun st e =>
      if allowedEntry e.name && !e.isDir then applyWrite st e else st)
    s

/-- `PerformUpdate`: resolve the platform download, snapshot `bin/` to
`.rollback`, download, verify the checksum, extract, record the version,
drop the snapshot.  Download, checksum and extraction failures roll back
before returning. -/
def performUpdate (env : UpdateEnv) (u : Updater) (m : Manifest)
    (s : USBState) : USBState × Option UpdateError :=
  match mapLookup m.downloads u.platform with
  | none => (s, some .unsupportedPlatform)
  | some dl =>
    if env.copyOk = false then ({ s with rollback := none }, some .backupFailed)
    else
      let s1 := { s with rollback := some s.bin }
      match env.downloadResult with
      | .error _ => (rollbackOp s1, some .downloadFailed)
      | .ok bytes =>
        if verifyChecksum env.hashHex bytes dl.sha256 = false then
          (rollbackOp s1, some .checksumFailed)
        else
          match env.unzipResult bytes with
          | .error _ => (rollbackOp s1, some .extractionFailed)
          | .ok entries =>
            let s2 := extractApply s1 entries
            let s3 := { s2 with versionFile := some m.version }
            ({ s3 with rollback := none }, none)

/-! ## Vault (`src/unnamed/part_008`, package `vault`) -/

/-- `CredentialType` (closed set of credential kinds). -/
inductive CredentialType
  | oauth
  | apikey
  | aws
  | gcp
  | mcp
deriving DecidableEq

/-- A credential entry.  `data` is the opaque `json.RawMessage` payload
(kept as its raw string); timestamps are `Nat` with `0` the Go zero
time. -/
structure Entry where
  id : String
  type : CredentialType
  provider : String
  data : String
  createdAt : Nat
  updatedAt : Nat
  expiresAt : Option Nat
  metadata : List (String × String)
deriving DecidableEq

/-- The decrypted contents of the vault (`vaultData`). -/
structure VaultData where
  version : Nat
  entries : List (String × Entry)
  createdAt : Nat
  updatedAt : Nat
deriving DecidableEq

/-- The error values of the `vault` package (plus the wrapped
`fmt.Errorf` failures the claims mention). -/
inductive VaultError
  | vaultLocked
  | wrongPassword
  | invalidVault
  | vaultNotFound
  | entryNotFound
  | vaultCorrupted
  | unsupportedVersion (v : Nat)
  | createDirFailed
  | saveFailed
  | readFailed
deriving DecidableEq

/-- A derived key in the ideal model of Argon2id: the key is determined
by, and determines, the password and the salt (so distinct passwords
derive distinct keys from the same salt). -/
structure DerivedKey where
  password : String
  salt : Nat
deriving DecidableEq

/-- `argon2.IDKey(password, salt, 3, 64*1024, 4, 32)` in the ideal
model. -/
def argon2IDKey (password : String) (salt : Nat) : DerivedKey :=
  ⟨password, salt⟩

/-- An AES-256-GCM sealed box in the ideal model: it records the sealing
key, the nonce and the plaintext, and opens exactly under that key and
nonce. -/
structure Sealed where
  key : DerivedKey
  nonce : Nat
  plaintext : VaultData
deriving DecidableEq

/-- `gcm.Seal(nil, nonce, plaintext, nil)`. -/
def gcmSeal (k : DerivedKey) (nonce : Nat) (pt : VaultData) : Sealed :=
  ⟨k, nonce, pt⟩

/-- `gcm.Open(nil, nonce, ciphertext, nil)`: authenticated decryption
succeeds exactly under the sealing key and nonce. -/
def gcmOpen (k : DerivedKey) (nonce : Nat) (ct : Sealed) : Option VaultData :=
  if ct.key = k ∧ ct.nonce = nonce then some ct.plaintext else none

/-- The vault file format magic number `"CCGO"`. -/
def magicNumber : Nat := 0x4343474F

/-- The single supported vault format version. -/
def vaultVersion : Nat := 1

/-- The on-disk vault file, structured: magic (4 bytes), format version
(2 bytes), salt (32 bytes), nonce (12 bytes), ciphertext+tag. -/
structure VaultFile where
  magic : Nat
  version : Nat
  salt : Nat
  nonce : Nat
  ciphertext : Sealed
deriving DecidableEq

/-- The file `save` assembles: magic + version + salt + nonce +
ciphertext sealed under `key` and `nonce`. -/
def encodeVaultFile (key : DerivedKey) (salt nonce : Nat) (d : VaultData) :
    VaultFile :=
  ⟨magicNumber, vaultVersion, salt, nonce, gcmSeal key nonce d⟩

/-- The in-memory `Vault` struct.  The `Option` fields are `nil` in Go
until `Create`/`Unlock` populate them. -/
structure Vault where
  path : String
  salt : Option Nat
  key : Option DerivedKey
  data : Option VaultData
  unlocked : Bool
deriving DecidableEq

/-- The filesystem as the vault sees it: the content at the vault path,
plus the outcomes of the two external effects `Create`/`save` perform
(`os.MkdirAll` on the parent directory, writing the temp file). -/
structure VaultFS where
  mkdirOk : Bool
  writeOk : Bool
  file : Option VaultFile
deriving DecidableEq

/-- `IsUnlocked`. -/
def Vault.IsUnlocked (v : Vault) : Bool :=
  v.unlocked

/-- `save`: refuse when locked, serialize, seal under a fresh `nonce`,
assemble the file and atomically replace the on-disk file (temp file +
rename, so on a write failure the old file is untouched).

Reachable callers always have `key`, `salt` and `data` populated when
`unlocked` holds; on the unreachable missing-field combination Go would
nil-panic, modelled as `saveFailed` with no state change. -/
def Vault.save (v : Vault) (nonce : Nat) (fs : VaultFS) :
    VaultFS × Option VaultError :=
  if v.unlocked = false then (fs, some .vaultLocked)
  else
    match v.key, v.salt, v.data with
    | some k, some s, some d =>
      if fs.writeOk then
        ({ fs with file := some (encodeVaultFile k s nonce d) }, none)
      else (fs, some .saveFailed)
    | _, _, _ => (fs, some .saveFailed)

/-- `Create(path, password)`: generate `salt`, derive the key, build an
unlocked vault with an empty entry map, ensure the parent directory
exists, and `save`.  `salt`, `nonce` and `now` stand for the random salt,
the random nonce of the initial save and the creation time. -/
def Create (path password : String) (salt nonce now : Nat) (fs : VaultFS) :
    Except VaultError (Vault × VaultFS) :=
  let key := argon2IDKey password salt
  let v : Vault :=
    { path := path, salt := some salt, key := some key,
      data := some ⟨1, [], now, now⟩, unlocked := true }
  if fs.mkdirOk = false then .error .createDirFailed
  else
    match v.save nonce fs with
    | (fs', none) => .ok (v, fs')
    | (_, some e) => .error e

/-- `Open(path)`: a cheap existence check; on success the handle is
locked and holds nothing but the path. -/
def Open (path : String) (fs : VaultFS) : Except VaultError Vault :=
  if fs.file = none then .error .vaultNotFound
  else .ok { path := path, salt := none, key := none, data := none, unlocked := false }

/-- `Unlock(password)`, parameterized by the key-derivation function so
that theorems can state that header rejection happens before any key is
derived.  `file` is the result of `os.ReadFile` (`none` = read failure).
The returned vault is the (possibly mutated) receiver: the code stores
the salt and derived key on the receiver before decrypting, so they are
set even when decryption then fails. -/
def unlockWith (kdf : String → Nat → DerivedKey) (v : Vault)
    (file : Option VaultFile) (password : String) : Vault × Option VaultError :=
  match file with
  | none => (v, some .readFailed)
  | some f =>
    if f.magic ≠ magicNumber then (v, some .invalidVault)
    else if f.version ≠ vaultVersion then (v, some (.unsupportedVersion f.version))
    else
      let key := kdf password f.salt
      let v1 := { v with salt := some f.salt, key := some key }
      match gcmOpen key f.nonce f.ciphertext with
      | none => (v1, some .wrongPassword)
      | some d => ({ v1 with data := some d, unlocked := true }, none)

/-- `Unlock(password)` with the real key-derivation function. -/
def Vault.Unlock (v : Vault) (file : Option VaultFile) (password : String) :
    Vault × Option VaultError :=
  unlockWith argon2IDKey v file password

/-- The timestamping done by `SetEntry`: assign `CreatedAt` only when the
supplied entry's `CreatedAt` is the zero time, always refresh
`UpdatedAt`. -/
def stampEntry (e : Entry) (now : Nat) : Entry :=
  { e with createdAt := if e.createdAt = 0 then now else e.createdAt,
           updatedAt := now }

/-- `SetEntry(entry)`: requires unlocked; stamp the entry, store it in
the entry map, refresh the vault's `UpdatedAt` and `save` (the entry map
mutation persists in memory even if the save fails, as in Go). -/
def Vault.SetEntry (v : Vault) (e : Entry) (now nonce : Nat) (fs : VaultFS) :
    Vault × VaultFS × Option VaultError :=
  if v.unlocked = false then (v, fs, some .vaultLocked)
  else
    match v.data with
    | none => (v, fs, some .vaultLocked)
    | some d =>
      let e' := stampEntry e now
      let d' := { d with entries := mapInsert d.entries e'.id e', updatedAt := now }
      let v' := { v with data := some d' }
      match v'.save nonce fs with
      | (fs', err) => (v', fs', err)

/-- `GetEntry(id)`: requires unlocked; look the entry up. -/
def Vault.GetEntry (v : Vault) (id : String) : Except VaultError Entry :=
  if v.unlocked = false then .error .vaultLocked
  else
    match v.data with
    | none => .error .vaultLocked
    | some d =>
      match mapLookup d.entries id with
      | none => .error .entryNotFound
      | some e => .ok e

/-- The per-entry copy `ListEntries` builds: every field except the
sensitive `Data` payload, which is left at its zero value. -/
def stripData (e : Entry) : Entry :=
  { id := e.id, type := e.type, provider := e.provider, data := "",
    createdAt := e.createdAt, updatedAt := e.updatedAt,
    expiresAt := e.expiresAt, metadata := e.metadata }

/-- `ListEntries()`: requires unlocked; return a copy of every entry
without its `Data` field. -/
def Vault.ListEntries (v : Vault) : Except VaultError (List Entry) :=
  if v.unlocked = false then .error .vaultLocked
  else
    match v.data with
    | none => .error .vaultLocked
    | some d => .ok (d.entries.map (fun p => stripData p.2))

/-- Equality of entries on every field except the timestamps. -/
def sameExceptTimes (a b : Entry) : Prop :=
  a.id = b.id ∧ a.type = b.type ∧ a.provider = b.provider ∧
    a.data = b.data ∧ a.expiresAt = b.expiresAt ∧ a.metadata = b.metadata

instance (a b : Entry) : Decidable (sameExceptTimes a b) := by
  unfold sameExceptTimes
  infer_instance

/-- Equality of entries on every field except the `data` payload. -/
def sameExceptData (a b : Entry) : Prop :=
  a.id = b.id ∧ a.type = b.type ∧ a.provider = b.provider ∧
    a.createdAt = b.createdAt ∧ a.updatedAt = b.updatedAt ∧
    a.expiresAt = b.expiresAt ∧ a.metadata = b.metadata

instance (a b : Entry) : Decidable (sameExceptData a b) := by
  unfold sameExceptData
  infer_instance

/-- One `SetEntry` call per list element; each element carries the entry
together with the wall-clock time and the random nonce of its save. -/
def setEntriesRun (v : Vault) (fs : VaultFS) :
    List (Entry × Nat × Nat) → Vault × VaultFS
  | [] => (v, fs)
  | (e, now, nonce) :: rest =>
    match Vault.SetEntry v e now nonce fs with
    | (v', fs', _) => setEntriesRun v' fs' rest

/-- The state a fresh handle sees after its `Unlock` call: the unlocked
entries on success, nothing on failure. -/
def unlockOutcome : Vault × Option VaultError → Option VaultData
  | (_, some _) => none
  | (v3, none) => if v3.unlocked then v3.data else none

/-- `Open(path)` then `Unlock(password)` on the fresh handle against the
final filesystem. -/
def openUnlock (path password : String) (fs2 : VaultFS) : Option VaultData :=
  match Open path fs2 with
  | .error _ => none
  | .ok vL => unlockOutcome (Vault.Unlock vL fs2.file password)

/-- The round-trip scenario of the spec: `Create(path, P)`, `SetEntry`
for each item, then `Open(path)` and `Unlock(P)` on the fresh handle;
the result is the entry state the fresh handle sees (`none` when any
step fails). -/
def roundTrip (path password : String) (salt nonce now : Nat)
    (items : List (Entry × Nat × Nat)) (fs0 : VaultFS) : Option VaultData :=
  match Create path password salt nonce now fs0 with
  | .error _ => none
  | .ok (v1, fs1) => openUnlock path password (setEntriesRun v1 fs1 items).2

/-! ## Helper lemmas about the vault operations -/

/-- The entry map produced by a sequence of `SetEntry` calls starting
from `m`. -/
def foldIns (m : List (String × Entry)) (items : List (Entry × Nat × Nat)) :
    List (String × Entry) :=
  items.foldl (fun acc it => mapInsert acc it.1.id (stampEntry it.1 it.2.1)) m

theorem stampEntry_id (e : Entry) (now : Nat) : (stampEntry e now).id = e.id := rfl

theorem sameExceptTimes_stamp (e : Entry) (now : Nat) :
    sameExceptTimes (stampEntry e now) e := by
  exact ⟨rfl, rfl, rfl, rfl, rfl, rfl⟩

theorem foldIns_lookup_not_mem :
    ∀ (items : List (Entry × Nat × Nat)) (m : List (String × Entry)) (id : String),
      id ∉ items.map (fun it => it.1.id) →
      mapLookup (foldIns m items) id = mapLookup m id := by
  intro items
  induction items with
  | nil => intro m id _; rfl
  | cons hd rest ih =>
    intro m id hid
    simp only [List.map_cons, List.mem_cons, not_or] at hid
    show mapLookup (foldIns (mapInsert m hd.1.id (stampEntry hd.1 hd.2.1)) rest) id = _
    rw [ih _ id hid.2, mapLookup_insert_ne _ _ _ _ (fun h => hid.1 h.symm)]

theorem foldIns_lookup_mem :
    ∀ (items : List (Entry × Nat × Nat)) (m : List (String × Entry))
      (it : Entry × Nat × Nat),
      (items.map (fun p => p.1.id)).Nodup → it ∈ items →
      mapLookup (foldIns m items) it.1.id = some (stampEntry it.1 it.2.1) := by
  intro items
  induction items with
  | nil => intro m it _ h; cases h
  | cons hd rest ih =>
    intro m it hnd hmem
    simp only [List.map_cons, List.nodup_cons] at hnd
    rcases List.mem_cons.mp hmem with h | h
    · subst h
      show mapLookup (foldIns (mapInsert m it.1.id (stampEntry it.1 it.2.1)) rest) it.1.id = _
      rw [foldIns_lookup_not_mem rest _ _ hnd.1, mapLookup_insert_self]
    · exact ih _ it hnd.2 h

theorem setEntriesRun_spec :
    ∀ (items : List (Entry × Nat × Nat)) (v : Vault) (fs : VaultFS)
      (k : DerivedKey) (s : Nat) (d : VaultData),
      v.unlocked = true → v.key = some k → v.salt = some s → v.data = some d →
      fs.writeOk = true →
      ∃ d' fs', setEntriesRun v fs items = ({ v with data := some d' }, fs')
        ∧ d'.entries = foldIns d.entries items
        ∧ fs'.writeOk = true
        ∧ ((fs'.file = fs.file ∧ d' = d) ∨
            ∃ n, fs'.file = some (encodeVaultFile k s n d')) := by
  intro items
  induction items with
  | nil =>
    intro v fs k s d hu hk hs hd hw
    refine ⟨d, fs, ?_, rfl, hw, Or.inl ⟨rfl, rfl⟩⟩
    obtain ⟨p, sl, ky, dt, ul⟩ := v
    simp only [setEntriesRun]
    simp_all
  | cons hd rest ih =>
    intro v fs k s d hu hk hs hdd hw
    obtain ⟨e, now, nonce⟩ := hd
    have hset : Vault.SetEntry v e now nonce fs =
        ({ v with data := some { d with
            entries := mapInsert d.entries (stampEntry e now).id (stampEntry e now),
            updatedAt := now } },
          { fs with file := some (encodeVaultFile k s nonce { d with
            entries := mapInsert d.entries (stampEntry e now).id (stampEntry e now),
            updatedAt := now }) }, none) := by
      unfold Vault.SetEntry Vault.save
      simp [hu, hk, hs, hdd, hw]
    obtain ⟨d', fs', heq, hent, hw', hfile⟩ :=
      ih ({ v with data := some { d with
            entries := mapInsert d.entries (stampEntry e now).id (stampEntry e now),
            updatedAt := now } })
        ({ fs with file := some (encodeVaultFile k s nonce { d with
            entries := mapInsert d.entries (stampEntry e now).id (stampEntry e now),
            updatedAt := now }) })
        k s _ hu hk hs rfl hw
    refine ⟨d', fs', ?_, ?_, hw', ?_⟩
    · show setEntriesRun v fs ((e, now, nonce) :: rest) = _
      unfold setEntriesRun
      rw [hset]
      exact heq
    · rw [hent]
      show _ = foldIns d.entries ((e, now, nonce) :: rest)
      unfold foldIns
      simp [stampEntry_id]
    · rcases hfile with ⟨hf, hd'⟩ | ⟨n, hf⟩
      · subst hd'
        exact Or.inr ⟨nonce, hf⟩
      · exact Or.inr ⟨n, hf⟩

theorem specVersionGt_congr_right (a b b' : String)
    (h : parsedTriple b = parsedTriple b') :
    specVersionGt a b = specVersionGt a b' := by
  unfold specVersionGt
  rw [h]

theorem roundTrip_create_ok (path password : String) (salt nonce now : Nat)
    (items : List (Entry × Nat × Nat)) (fs0 : VaultFS) (v1 : Vault) (fs1 : VaultFS)
    (h : Create path password salt nonce now fs0 = .ok (v1, fs1)) :
    roundTrip path password salt nonce now items fs0 =
      openUnlock path password (setEntriesRun v1 fs1 items).2 := by
  unfold roundTrip
  rw [h]

theorem openUnlock_file_some (path password : String) (fs2 : VaultFS)
    (f : VaultFile) (h : fs2.file = some f) :
    openUnlock path password fs2 =
      unlockOutcome (Vault.Unlock
        { path := path, salt := none, key := none, data := none, unlocked := false }
        (some f) password) := by
  unfold openUnlock Open
  rw [h]
  rfl

theorem unlockOutcome_pair (v : Vault) :
    unlockOutcome (v, none) = if v.unlocked then v.data else none := rfl

/-! ## The claims -/

/-- C4: version comparison is numeric and component-wise: for all version
strings `a` and `b`, `compareVersions` splits on `.` and compares each of
three integer components in order with missing components treated as 0
(it returns 1 exactly on the lexicographic strictly-greater relation of
the parsed triples and 0 exactly on their equality, so
`"1.10.0" > "1.9.9"` and `"1.2"` equals `"1.2.0"`), and `CheckForUpdate`
reports an update available exactly when the manifest version is strictly
greater than the current version. -/
theorem compareVersions_componentwise_C4 (a b : String) (u : Updater) (m : Manifest) :
    (compareVersions a b = 1 ↔ specVersionGt a b = true)
    ∧ (compareVersions a b = 0 ↔ parsedTriple a = parsedTriple b)
    ∧ compareVersions "1.10.0" "1.9.9" = 1
    ∧ compareVersions "1.2" "1.2.0" = 0
    ∧ (checkForUpdate u m = true ↔ specVersionGt m.version u.currentVersion = true) :=
  ⟨compareVersions_eq_one_iff a b, compareVersions_eq_zero_iff a b,
    by decide, by decide, checkForUpdate_iff u m⟩

/-- C10: a version-string component with no parseable integer at its
front is treated as 0 by the `fmt.Sscanf` parse, so a current version
with no numeric components (such as the recorded version `"dev"`) parses
as `(0,0,0)` and compares equal to `"0.0.0"`, and `CheckForUpdate` then
reports an update available exactly for manifest versions strictly
greater than `0.0.0`. -/
theorem compareVersions_nonnumeric_C10 :
    (∀ c : String, hasIntPre c = false → goScanInt c = 0)
    ∧ (∀ cur : String, parsedTriple cur = (0, 0, 0) →
        ∀ u : Updater, u.currentVersion = cur → ∀ m : Manifest,
          (checkForUpdate u m = true ↔ specVersionGt m.version "0.0.0" = true))
    ∧ parsedTriple "dev" = (0, 0, 0)
    ∧ compareVersions "dev" "0.0.0" = 0 := by
  refine ⟨?_, ?_, by decide, by decide⟩
  · intro c h
    unfold hasIntPre at h
    unfold goScanInt scanBody
    cases hds : c.data.dropWhile Char.isWhitespace with
    | nil => rfl
    | cons ch rest =>
      rw [hds] at h
      simp only at h ⊢
      split_ifs at h ⊢ <;> simp_all
  · intro cur hcur u hu m
    rw [checkForUpdate_iff, hu,
      specVersionGt_congr_right m.version cur "0.0.0"
        (hcur.trans (by decide : parsedTriple "0.0.0" = (0, 0, 0)).symm)]

/-- C10 witness: the recorded version `"dev"` scans to 0, and at that
current version `CheckForUpdate` decides updates against `0.0.0`. -/
theorem compareVersions_nonnumeric_C10_witness :
    goScanInt "dev" = 0 ∧
    (checkForUpdate ⟨"/usb", "dev", "linux-amd64"⟩ ⟨"0.0.1", "", [], [], ""⟩ = true ↔
      specVersionGt "0.0.1" "0.0.0" = true) :=
  ⟨compareVersions_nonnumeric_C10.1 "dev" (by decide),
    compareVersions_nonnumeric_C10.2.1 "dev" (by decide)
      ⟨"/usb", "dev", "linux-amd64"⟩ rfl ⟨"0.0.1", "", [], [], ""⟩⟩

/-- C1: evaluation of `extractUpdate` at the failing inputs.  The claim
says no archive entry, however crafted, is ever written into the
credential store (`vault/`), session storage (`sessions/`) or config
directories; but the allowlist passes any entry name ending in `.sh` or
`.bat` wherever it points, and performs no `..` sanitization after the
`bin/` prefix check, so `vault/evil.sh` is written to
`USBRoot/vault/evil.sh` inside the credential store and
`bin/../sessions/evil.sh` to `USBRoot/sessions/evil.sh` inside session
storage. -/
theorem extractUpdate_writes_into_vault_C1 :
    allowedEntry "vault/evil.sh" = true
    ∧ extractUpdateWrites [⟨"vault/evil.sh", false, [0]⟩] = [["vault", "evil.sh"]]
    ∧ allowedEntry "bin/../sessions/evil.sh" = true
    ∧ extractUpdateWrites [⟨"bin/../sessions/evil.sh", false, [0]⟩] =
        [["sessions", "evil.sh"]]
    ∧ (extractApply ⟨[], [], none, none⟩ [⟨"vault/evil.sh", false, [0]⟩]).outside =
        [(["vault", "evil.sh"], [0])] := by
  decide

/-- C6: `Unlock` validates the header before anything else: whatever the
key-derivation function and the rest of the file, a wrong magic number
fails with the invalid-format error and a wrong format version with the
unsupported-version error, leaving the receiver untouched, without
deriving a key or decrypting. -/
theorem unlock_header_validation_C6 (kdf : String → Nat → DerivedKey) (v : Vault)
    (pw : String) (mg ver salt nonce : Nat) (ct : Sealed) :
    (mg ≠ magicNumber →
      unlockWith kdf v (some ⟨mg, ver, salt, nonce, ct⟩) pw = (v, some .invalidVault))
    ∧ (ver ≠ vaultVersion →
      unlockWith kdf v (some ⟨magicNumber, ver, salt, nonce, ct⟩) pw =
        (v, some (.unsupportedVersion ver))) := by
  constructor
  · intro h
    unfold unlockWith
    simp [h]
  · intro h
    unfold unlockWith
    simp [h]

/-- C6 witness: a file with magic 0 is rejected as invalid, and a file
with correct magic but version 2 as unsupported. -/
theorem unlock_header_validation_C6_witness :
    unlockWith argon2IDKey ⟨"p", none, none, none, false⟩
        (some ⟨0, vaultVersion, 1, 2, ⟨⟨"pw", 1⟩, 2, ⟨1, [], 0, 0⟩⟩⟩) "x" =
      (⟨"p", none, none, none, false⟩, some .invalidVault)
    ∧ unlockWith argon2IDKey ⟨"p", none, none, none, false⟩
        (some ⟨magicNumber, 2, 1, 2, ⟨⟨"pw", 1⟩, 2, ⟨1, [], 0, 0⟩⟩⟩) "x" =
      (⟨"p", none, none, none, false⟩, some (.unsupportedVersion 2)) :=
  ⟨(unlock_header_validation_C6 argon2IDKey ⟨"p", none, none, none, false⟩ "x"
      0 vaultVersion 1 2 ⟨⟨"pw", 1⟩, 2, ⟨1, [], 0, 0⟩⟩).1 (by decide),
    (unlock_header_validation_C6 argon2IDKey ⟨"p", none, none, none, false⟩ "x"
      magicNumber 2 1 2 ⟨⟨"pw", 1⟩, 2, ⟨1, [], 0, 0⟩⟩).2 (by decide)⟩

/-- C9: for every unlocked vault, `ListEntries` returns one copy per
stored entry carrying identifier, kind, provider, timestamps, expiry and
metadata, but with the sensitive `Data` payload left empty. -/
theorem listEntries_strips_data_C9 (v : Vault) (d : VaultData)
    (h1 : v.unlocked = true) (h2 : v.data = some d) :
    Vault.ListEntries v = .ok (d.entries.map (fun p => stripData p.2))
    ∧ ∀ p ∈ d.entries,
        (stripData p.2).data = "" ∧ sameExceptData (stripData p.2) p.2 := by
  constructor
  · unfold Vault.ListEntries
    simp [h1, h2]
  · intro p _
    exact ⟨rfl, rfl, rfl, rfl, rfl, rfl, rfl, rfl⟩

/-- C9 witness: listing a concrete unlocked vault holding one OAuth
entry with payload `"SECRET"` returns the entry with every field intact
except the payload, which is empty. -/
theorem listEntries_strips_data_C9_witness :
    Vault.ListEntries
        ⟨"/usb/vault/credentials.vault", some 1, some ⟨"pw", 1⟩,
          some ⟨1, [("auth/claudeai",
            ⟨"auth/claudeai", .oauth, "claudeai", "SECRET", 5, 6, none, []⟩)], 5, 6⟩,
          true⟩ =
      .ok [⟨"auth/claudeai", .oauth, "claudeai", "", 5, 6, none, []⟩] :=
  (listEntries_strips_data_C9
    ⟨"/usb/vault/credentials.vault", some 1, some ⟨"pw", 1⟩,
      some ⟨1, [("auth/claudeai",
        ⟨"auth/claudeai", .oauth, "claudeai", "SECRET", 5, 6, none, []⟩)], 5, 6⟩,
      true⟩
    ⟨1, [("auth/claudeai",
      ⟨"auth/claudeai", .oauth, "claudeai", "SECRET", 5, 6, none, []⟩)], 5, 6⟩
    rfl rfl).1

/-- C3: for every vault file saved under password `pw` and every other
password `q`, `Unlock(q)` fails with the wrong-password error, the vault
remains locked (`IsUnlocked` is false), and every subsequent
`GetEntry`/`ListEntries` call fails with the vault-locked error, so no
entries are readable. -/
theorem unlock_wrong_password_C3 (pw q : String) (hne : q ≠ pw)
    (salt nonce : Nat) (d : VaultData) (v : Vault)
    (hu : v.unlocked = false) (id : String) (v' : Vault) (err : Option VaultError)
    (hrun : Vault.Unlock v
        (some (encodeVaultFile (argon2IDKey pw salt) salt nonce d)) q = (v', err)) :
    err = some .wrongPassword
    ∧ v'.IsUnlocked = false
    ∧ Vault.GetEntry v' id = .error .vaultLocked
    ∧ Vault.ListEntries v' = .error .vaultLocked := by
  have hres : Vault.Unlock v
      (some (encodeVaultFile (argon2IDKey pw salt) salt nonce d)) q =
      ({ v with salt := some salt, key := some (argon2IDKey q salt) },
        some .wrongPassword) := by
    unfold Vault.Unlock unlockWith encodeVaultFile gcmOpen gcmSeal argon2IDKey
    simp [Ne.symm hne]
  rw [hres, Prod.mk.injEq] at hrun
  obtain ⟨hv', herr⟩ := hrun
  subst hv'
  refine ⟨herr.symm, hu, ?_, ?_⟩
  · unfold Vault.GetEntry
    simp [Vault.IsUnlocked, hu]
  · unfold Vault.ListEntries
    simp [Vault.IsUnlocked, hu]

/-- C3 witness: unlocking a concrete vault saved under `"correct"` with
`"wrong"` reports the wrong-password error and leaves a handle on which
`GetEntry` and `ListEntries` fail as vault-locked. -/
theorem unlock_wrong_password_C3_witness :
    some VaultError.wrongPassword = some VaultError.wrongPassword
    ∧ Vault.IsUnlocked ⟨"p", some 1, some ⟨"wrong", 1⟩, none, false⟩ = false
    ∧ Vault.GetEntry ⟨"p", some 1, some ⟨"wrong", 1⟩, none, false⟩ "auth/claudeai" =
        .error .vaultLocked
    ∧ Vault.ListEntries ⟨"p", some 1, some ⟨"wrong", 1⟩, none, false⟩ =
        .error .vaultLocked :=
  unlock_wrong_password_C3 "correct" "wrong" (by decide) 1 2
    ⟨1, [("auth/claudeai", ⟨"auth/claudeai", .oauth, "claudeai", "S", 0, 0, none, []⟩)], 0, 0⟩
    ⟨"p", none, none, none, false⟩ rfl "auth/claudeai"
    ⟨"p", some 1, some ⟨"wrong", 1⟩, none, false⟩ (some .wrongPassword) (by decide)

/-- C7 counterexample: `Create` performs no existing-file check.  On a
filesystem already holding a vault file (saved under password `"old"`
with an entry), `Create` succeeds and the file at the path afterwards is
the new empty vault — the existing vault is silently destroyed, refuting
the claim that `Create` fails rather than overwrite an existing vault
file. -/
theorem create_overwrites_existing_C7_counterexample :
    Create "p" "new" 1 2 3
        ⟨true, true, some (encodeVaultFile (argon2IDKey "old" 9) 9 8
          ⟨1, [("auth/x", ⟨"auth/x", .apikey, "console", "K", 1, 1, none, []⟩)], 1, 1⟩)⟩ =
      .ok (⟨"p", some 1, some ⟨"new", 1⟩, some ⟨1, [], 3, 3⟩, true⟩,
        ⟨true, true, some (encodeVaultFile (argon2IDKey "new" 1) 1 2 ⟨1, [], 3, 3⟩)⟩)
    ∧ encodeVaultFile (argon2IDKey "new" 1) 1 2 ⟨1, [], 3, 3⟩ ≠
        encodeVaultFile (argon2IDKey "old" 9) 9 8
          ⟨1, [("auth/x", ⟨"auth/x", .apikey, "console", "K", 1, 1, none, []⟩)], 1, 1⟩ :=
  ⟨rfl, by decide⟩

/-- C7 amended: `Create` fails when the parent directory cannot be
created (and when the initial save fails); it makes no existing-file
check, and whenever directory creation and the write succeed it
atomically replaces whatever file is at the path with the fresh empty
vault. -/
theorem create_parent_dir_or_overwrite_C7 (path password : String)
    (salt nonce now : Nat) (fs : VaultFS) :
    (fs.mkdirOk = false →
      Create path password salt nonce now fs = .error .createDirFailed)
    ∧ (fs.mkdirOk = true → fs.writeOk = true →
      Create path password salt nonce now fs =
        .ok ({ path := path, salt := some salt, key := some (argon2IDKey password salt),
               data := some ⟨1, [], now, now⟩, unlocked := true },
             { fs with file := some (encodeVaultFile (argon2IDKey password salt)
                 salt nonce ⟨1, [], now, now⟩) }))
    ∧ (fs.mkdirOk = true → fs.writeOk = false →
      Create path password salt nonce now fs = .error .saveFailed) := by
  refine ⟨?_, ?_, ?_⟩
  · intro h
    unfold Create
    simp [h]
  · intro h hw
    unfold Create Vault.save
    simp [h, hw]
  · intro h hw
    unfold Create Vault.save
    simp [h, hw]

/-- C7 witness: on a filesystem whose parent directory cannot be created
`Create` fails, and on one where everything succeeds it writes the fresh
vault file. -/
theorem create_parent_dir_or_overwrite_C7_witness :
    Create "p" "pw" 1 2 3 ⟨false, true, none⟩ = .error .createDirFailed
    ∧ Create "p" "pw" 1 2 3 ⟨true, true, none⟩ =
        .ok (⟨"p", some 1, some ⟨"pw", 1⟩, some ⟨1, [], 3, 3⟩, true⟩,
          ⟨true, true, some (encodeVaultFile (argon2IDKey "pw" 1) 1 2 ⟨1, [], 3, 3⟩)⟩) :=
  ⟨(create_parent_dir_or_overwrite_C7 "p" "pw" 1 2 3 ⟨false, true, none⟩).1 rfl,
    (create_parent_dir_or_overwrite_C7 "p" "pw" 1 2 3 ⟨true, true, none⟩).2.1 rfl rfl⟩

/-- C8 counterexample: `SetEntry` decides the creation timestamp by the
zero-check on the supplied entry, not by whether the ID is already
stored.  Updating the existing entry `"a"` (first inserted with creation
time 5) with a freshly-built struct (zero `CreatedAt`) at time 9 stores
creation time 9, refuting "assigns the creation timestamp exactly on the
first insert of that entry ID (preserving it on later updates)". -/
theorem setEntry_createdAt_counterexample_C8 :
    Option.map (fun d => mapLookup d.entries "a")
      (Vault.SetEntry
        ⟨"p", some 1, some ⟨"pw", 1⟩,
          some ⟨1, [("a", ⟨"a", .apikey, "console", "K1", 5, 5, none, []⟩)], 5, 5⟩, true⟩
        ⟨"a", .apikey, "console", "K2", 0, 0, none, []⟩ 9 7
        ⟨true, true, none⟩).1.data =
      some (some ⟨"a", .apikey, "console", "K2", 9, 9, none, []⟩)
    ∧ (9 : Nat) ≠ 5 := by
  decide

/-- C8 amended: `SetEntry` requires the vault to be unlocked (failing
with the vault-locked error otherwise); it sets the stored entry's
creation timestamp to now exactly when the supplied entry's `CreatedAt`
is the zero time and keeps the supplied value otherwise (so the stored
creation time survives an update only if the caller passes it back),
always sets the update timestamp to now, and rewrites the entire vault
file from the full state. -/
theorem setEntry_behavior_C8 (v : Vault) (d : VaultData) (k : DerivedKey)
    (s : Nat) (e : Entry) (now nonce : Nat) (fs : VaultFS) :
    (v.unlocked = false → Vault.SetEntry v e now nonce fs = (v, fs, some .vaultLocked))
    ∧ (v.unlocked = true → v.data = some d → v.key = some k → v.salt = some s →
      fs.writeOk = true →
      Vault.SetEntry v e now nonce fs =
        ({ v with data := some { d with
              entries := mapInsert d.entries e.id (stampEntry e now),
              updatedAt := now } },
          { fs with file := some (encodeVaultFile k s nonce { d with
              entries := mapInsert d.entries e.id (stampEntry e now),
              updatedAt := now }) }, none)
      ∧ (stampEntry e now).createdAt = (if e.createdAt = 0 then now else e.createdAt)
      ∧ (stampEntry e now).updatedAt = now) := by
  constructor
  · intro h
    unfold Vault.SetEntry
    simp [h]
  · intro hu hd hk hs hw
    refine ⟨?_, rfl, rfl⟩
    unfold Vault.SetEntry Vault.save
    simp [hu, hd, hk, hs, hw, stampEntry_id]

/-- C8 witness: a locked vault rejects `SetEntry`, and on an unlocked
vault a first insert at time 9 stores creation and update time 9 and
rewrites the file. -/
theorem setEntry_behavior_C8_witness :
    Vault.SetEntry ⟨"p", none, none, none, false⟩
        ⟨"a", .apikey, "console", "K", 0, 0, none, []⟩ 9 7 ⟨true, true, none⟩ =
      (⟨"p", none, none, none, false⟩, ⟨true, true, none⟩, some .vaultLocked)
    ∧ (Vault.SetEntry ⟨"p", some 1, some ⟨"pw", 1⟩, some ⟨1, [], 3, 3⟩, true⟩
        ⟨"a", .apikey, "console", "K", 0, 0, none, []⟩ 9 7 ⟨true, true, none⟩ =
      (⟨"p", some 1, some ⟨"pw", 1⟩,
          some ⟨1, [("a", ⟨"a", .apikey, "console", "K", 9, 9, none, []⟩)], 3, 9⟩, true⟩,
        ⟨true, true, some (encodeVaultFile ⟨"pw", 1⟩ 1 7
          ⟨1, [("a", ⟨"a", .apikey, "console", "K", 9, 9, none, []⟩)], 3, 9⟩)⟩, none))
    ∧ Entry.createdAt ⟨"a", .apikey, "console", "K", 9, 9, none, []⟩ = 9 := by
  refine ⟨(setEntry_behavior_C8 ⟨"p", none, none, none, false⟩ ⟨1, [], 3, 3⟩ ⟨"pw", 1⟩ 1
      ⟨"a", .apikey, "console", "K", 0, 0, none, []⟩ 9 7 ⟨true, true, none⟩).1 rfl, ?_, rfl⟩
  have h := (setEntry_behavior_C8 ⟨"p", some 1, some ⟨"pw", 1⟩, some ⟨1, [], 3, 3⟩, true⟩
      ⟨1, [], 3, 3⟩ ⟨"pw", 1⟩ 1
      ⟨"a", .apikey, "console", "K", 0, 0, none, []⟩ 9 7 ⟨true, true, none⟩).2
      rfl rfl rfl rfl rfl
  exact h.1.trans (by decide)

/-- C5: once the platform download is resolved and the snapshot copy
succeeded, `PerformUpdate` verifies integrity by hashing the full
downloaded bytes and comparing the hex digest case-insensitively
(`strings.EqualFold`) with the manifest's; on mismatch it rolls the
snapshot back and returns the distinct checksum-verification-failed
error with the USB state exactly as before (nothing of the candidate
installed), and download and extraction failures likewise roll back
before their errors reach the caller; when the digests match up to case
the pipeline proceeds to extraction. -/
theorem performUpdate_failures_rollback_C5 (env : UpdateEnv) (u : Updater)
    (m : Manifest) (s : USBState) (dl : Download)
    (hdl : mapLookup m.downloads u.platform = some dl)
    (hcopy : env.copyOk = true) :
    (env.downloadResult = .error () →
      performUpdate env u m s = ({ s with rollback := none }, some .downloadFailed))
    ∧ (∀ bytes, env.downloadResult = .ok bytes →
        goEqualFold (env.hashHex bytes) dl.sha256 = false →
        performUpdate env u m s = ({ s with rollback := none }, some .checksumFailed))
    ∧ (∀ bytes, env.downloadResult = .ok bytes →
        goEqualFold (env.hashHex bytes) dl.sha256 = true →
        env.unzipResult bytes = .error () →
        performUpdate env u m s = ({ s with rollback := none }, some .extractionFailed))
    ∧ (∀ bytes entries, env.downloadResult = .ok bytes →
        goEqualFold (env.hashHex bytes) dl.sha256 = true →
        env.unzipResult bytes = .ok entries →
        performUpdate env u m s =
          ({ extractApply { s with rollback := some s.bin } entries with
              versionFile := some m.version, rollback := none }, none)) := by
  refine ⟨?_, ?_, ?_, ?_⟩
  · intro hdn
    unfold performUpdate
    rw [hdl, hdn]
    simp [hcopy, rollbackOp]
  · intro bytes hdn hsum
    unfold performUpdate
    rw [hdl, hdn]
    simp [hcopy, verifyChecksum, hsum, rollbackOp]
  · intro bytes hdn hsum hz
    unfold performUpdate
    rw [hdl, hdn]
    simp [hcopy, verifyChecksum, hsum, hz, rollbackOp]
  · intro bytes entries hdn hsum hz
    unfold performUpdate
    rw [hdl, hdn]
    simp [hcopy, verifyChecksum, hsum, hz, rollbackOp]

/-- C5 witness: with a concrete one-file payload, a checksum mismatch
(`"ff"` declared, bytes hashing to `"ab"`) rolls back and reports
checksum failure; with a case-insensitively matching digest (declared
`"AB"`, computed `"ab"`) and an empty archive the update commits. -/
theorem performUpdate_failures_rollback_C5_witness :
    performUpdate
        ⟨fun _ => "ab", true, .ok [7], fun _ => .ok []⟩
        ⟨"/usb", "1.0.0", "linux-amd64"⟩
        ⟨"1.1.0", "", [], [("linux-amd64", ⟨"u", "ff", 1⟩)], ""⟩
        ⟨[(["claude"], [1])], [(["vault", "credentials.vault"], [9])], none, some "1.0.0"⟩ =
      (⟨[(["claude"], [1])], [(["vault", "credentials.vault"], [9])], none, some "1.0.0"⟩,
        some .checksumFailed)
    ∧ performUpdate
        ⟨fun _ => "ab", true, .ok [7], fun _ => .ok []⟩
        ⟨"/usb", "1.0.0", "linux-amd64"⟩
        ⟨"1.1.0", "", [], [("linux-amd64", ⟨"u", "AB", 1⟩)], ""⟩
        ⟨[(["claude"], [1])], [(["vault", "credentials.vault"], [9])], none, some "1.0.0"⟩ =
      (⟨[(["claude"], [1])], [(["vault", "credentials.vault"], [9])], none, some "1.1.0"⟩,
        none) := by
  constructor
  · exact (performUpdate_failures_rollback_C5
      ⟨fun _ => "ab", true, .ok [7], fun _ => .ok []⟩
      ⟨"/usb", "1.0.0", "linux-amd64"⟩
      ⟨"1.1.0", "", [], [("linux-amd64", ⟨"u", "ff", 1⟩)], ""⟩
      ⟨[(["claude"], [1])], [(["vault", "credentials.vault"], [9])], none, some "1.0.0"⟩
      ⟨"u", "ff", 1⟩ (by decide) rfl).2.1 [7] rfl (by decide)
  · exact ((performUpdate_failures_rollback_C5
      ⟨fun _ => "ab", true, .ok [7], fun _ => .ok []⟩
      ⟨"/usb", "1.0.0", "linux-amd64"⟩
      ⟨"1.1.0", "", [], [("linux-amd64", ⟨"u", "AB", 1⟩)], ""⟩
      ⟨[(["claude"], [1])], [(["vault", "credentials.vault"], [9])], none, some "1.0.0"⟩
      ⟨"u", "AB", 1⟩ (by decide) rfl).2.2.2 [7] [] rfl (by decide) rfl).trans (by decide)

/-- C2: round trip.  For any password, any list of entries with distinct
identifiers (each `SetEntry` call carrying its own wall-clock time and
save nonce) and any filesystem on which directory creation and writes
succeed, `Create`, then `SetEntry` for each entry, then `Open` and
`Unlock` with the same password on a fresh handle yields exactly the
given entries: each supplied entry is stored under its identifier equal
on every field except the timestamps the store assigns, and no other
identifier is present. -/
theorem vault_roundTrip_C2 (path pw : String) (salt nonce now : Nat)
    (items : List (Entry × Nat × Nat)) (fs0 : VaultFS)
    (hnodup : (items.map (fun it => it.1.id)).Nodup)
    (hmk : fs0.mkdirOk = true) (hwr : fs0.writeOk = true) :
    ∃ d, roundTrip path pw salt nonce now items fs0 = some d
      ∧ (∀ it ∈ items,
          ∃ e, mapLookup d.entries it.1.id = some e ∧ sameExceptTimes e it.1)
      ∧ (∀ id, id ∉ items.map (fun it => it.1.id) →
          mapLookup d.entries id = none) := by
  have hCreate : Create path pw salt nonce now fs0 =
      .ok ({ path := path, salt := some salt, key := some (argon2IDKey pw salt),
             data := some ⟨1, [], now, now⟩, unlocked := true },
           { fs0 with file := some (encodeVaultFile (argon2IDKey pw salt) salt nonce
               ⟨1, [], now, now⟩) }) := by
    unfold Create Vault.save
    simp [hmk, hwr]
  obtain ⟨d', fs', hrun, hent, hw', hfile⟩ :=
    setEntriesRun_spec items
      { path := path, salt := some salt, key := some (argon2IDKey pw salt),
        data := some ⟨1, [], now, now⟩, unlocked := true }
      { fs0 with file := some (encodeVaultFile (argon2IDKey pw salt) salt nonce
          ⟨1, [], now, now⟩) }
      (argon2IDKey pw salt) salt ⟨1, [], now, now⟩ rfl rfl rfl rfl hwr
  have hfile' : ∃ n, fs'.file =
      some (encodeVaultFile (argon2IDKey pw salt) salt n d') := by
    rcases hfile with ⟨hf, hd⟩ | h
    · subst hd
      exact ⟨nonce, by rw [hf]⟩
    · exact h
  obtain ⟨n, hfn⟩ := hfile'
  have hUnlock : Vault.Unlock
      { path := path, salt := none, key := none, data := none, unlocked := false }
      (some (encodeVaultFile (argon2IDKey pw salt) salt n d')) pw =
      ({ path := path, salt := some salt, key := some (argon2IDKey pw salt),
         data := some d', unlocked := true }, none) := by
    unfold Vault.Unlock unlockWith encodeVaultFile gcmOpen gcmSeal
    simp
  refine ⟨d', ?_, ?_, ?_⟩
  · rw [roundTrip_create_ok path pw salt nonce now items fs0 _ _ hCreate, hrun]
    show openUnlock path pw fs' = some d'
    rw [openUnlock_file_some path pw fs' _ hfn, hUnlock, unlockOutcome_pair]
    rfl
  · intro it hit
    refine ⟨stampEntry it.1 it.2.1, ?_, sameExceptTimes_stamp it.1 it.2.1⟩
    rw [hent]
    exact foldIns_lookup_mem items _ it hnodup hit
  · intro id hid
    rw [hent, foldIns_lookup_not_mem items _ id hid]
    rfl

/-- C2 witness: the round trip at a concrete two-entry vault — create
under `"pw"`, store an OAuth token and an API key, reopen and unlock —
yields exactly those two entries up to timestamps and nothing else. -/
theorem vault_roundTrip_C2_witness :
    ∃ d, roundTrip "p" "pw" 1 2 3
        [(⟨"auth/claudeai", .oauth, "claudeai", "T1", 0, 0, none, []⟩, 4, 5),
          (⟨"auth/console", .apikey, "console", "K1", 0, 0, none, []⟩, 6, 7)]
        ⟨true, true, none⟩ = some d
      ∧ (∀ it ∈ [(⟨"auth/claudeai", .oauth, "claudeai", "T1", 0, 0, none, []⟩, 4, 5),
            (⟨"auth/console", .apikey, "console", "K1", 0, 0, none, []⟩, 6, 7)],
          ∃ e, mapLookup d.entries
              (Prod.fst (α := Entry) (β := Nat × Nat) it).id = some e ∧
            sameExceptTimes e it.1)
      ∧ (∀ id, id ∉ List.map (fun it => (Prod.fst (α := Entry) (β := Nat × Nat) it).id)
            [(⟨"auth/claudeai", .oauth, "claudeai", "T1", 0, 0, none, []⟩, 4, 5),
              (⟨"auth/console", .apikey, "console", "K1", 0, 0, none, []⟩, 6, 7)] →
          mapLookup d.entries id = none) :=
  vault_roundTrip_C2 "p" "pw" 1 2 3
    [(⟨"auth/claudeai", .oauth, "claudeai", "T1", 0, 0, none, []⟩, 4, 5),
      (⟨"auth/console", .apikey, "console", "K1", 0, 0, none, []⟩, 6, 7)]
    ⟨true, true, none⟩ (by decide) rfl rfl

end ClaudeGo
